import Mathlib

/-!
Verification of the client-side replica-coordination layer of
waynexia/ClickHouse: the `ParallelReplicas` coordinator
(src/dbms/include/DB/Client/ParallelReplicas.h) and the
`ClusterDiscovery` service (src/src/Interpreters/ClusterDiscovery.h).

The repository ships only the class declarations (headers); all method
bodies except the two inline accessors `size()` and `hasActiveReplicas()`
are absent.  Following the header doc comments and the specification,
the missing bodies are modelled as pure Lean functions: the coordinator
is a record threaded explicitly through each operation, a connection is
its pending packet stream, and the unspecified choice of which ready
replica to read next is an explicit parameter (a socket id, or a
schedule of socket ids).
-/

namespace DB

/-- Packet variants received from a replica, the closed tagged union of
spec section 3: `Data(block) | Progress | ProfileInfo | Exception |
EndOfStream | Log`.  Blocks and exception payloads are abstracted to
natural numbers. -/
inductive Packet where
  | Data (block : Nat) : Packet
  | Progress : Packet
  | ProfileInfo : Packet
  | Exception (code : Nat) : Packet
  | EndOfStream : Packet
  | Log : Packet
deriving DecidableEq, Repr

/-- A packet is terminal when it ends the replica's stream:
Exception or EndOfStream. -/
def Packet.isTerminal : Packet → Bool
  | .Exception _ => true
  | .EndOfStream => true
  | _ => false

/-- A packet is an exception packet. -/
def Packet.isExc : Packet → Bool
  | .Exception _ => true
  | _ => false

/-- One live session to a replica (collaborator `Connection`),
modelled by the stream of packets it has yet to deliver. -/
structure Connection where
  stream : List Packet
deriving DecidableEq, Repr

/-- The ReplicaMap of ParallelReplicas.h:73: socket id to connection.
An invalidated replica keeps its key but loses its connection (`none`),
mirroring the C++ map whose entry is reset rather than erased, so that
`size()` never changes. -/
abbrev ReplicaMap := List (Nat × Option Connection)

/-- First-match association lookup in a ReplicaMap. -/
def lookupReplica : ReplicaMap → Nat → Option (Option Connection)
  | [], _ => none
  | (k, v) :: rest, fd => if k = fd then some v else lookupReplica rest fd

/-- Replace the value of the first entry with the given key. -/
def setReplica : ReplicaMap → Nat → Option Connection → ReplicaMap
  | [], _, _ => []
  | (k, w) :: rest, fd, v =>
      if k = fd then (k, v) :: rest else (k, w) :: setReplica rest fd v

/-- Socket ids of the entries that still hold a live connection. -/
def liveIds (m : ReplicaMap) : List Nat :=
  m.filterMap (fun p => match p.2 with | some _ => some p.1 | none => none)

/-- State of one `ParallelReplicas` coordinator
(ParallelReplicas.h:96-122).  `cancel_signalled` records the socket ids
that were sent the cancellation signal, modelling the broadcast side
effect of `sendCancel`. -/
structure ParallelReplicas where
  replica_map : ReplicaMap
  active_replica_count : Nat
  sent_query : Bool
  cancelled : Bool
  cancel_signalled : List Nat
deriving DecidableEq, Repr

/-- `size()` from ParallelReplicas.h:65:
`return replica_map.size();`. -/
def size (c : ParallelReplicas) : Nat := c.replica_map.length

/-- `hasActiveReplicas()` from ParallelReplicas.h:69:
`return active_replica_count > 0;`. -/
def hasActiveReplicas (c : ParallelReplicas) : Bool :=
  c.active_replica_count > 0

/-- Construction (spec section 4.1): every supplied connection is
registered into the ReplicaSet; the active count starts equal to the
registered count; no query sent, not cancelled. -/
def mkParallelReplicas (conns : List (Nat × Connection)) : ParallelReplicas :=
  { replica_map := conns.map (fun p => (p.1, some p.2))
    active_replica_count := conns.length
    sent_query := false
    cancelled := false
    cancel_signalled := [] }

/-- Modelled from the spec: the body of
`ParallelReplicas::invalidateReplica` (declared at
ParallelReplicas.h:94) is not in the repository.  Spec section 4.1:
an invalidated connection is "removed from consideration, active count
decremented"; section 3: its map entry survives so `size()` is
unchanged.  The entry's connection is dropped and the counter
decremented. -/
def invalidateReplica (c : ParallelReplicas) (fd : Nat) : ParallelReplicas :=
  { c with
    replica_map := setReplica c.replica_map fd none
    active_replica_count := c.active_replica_count - 1 }

/-- Error kinds surfaced by coordinator operations (spec section 7). -/
inductive CoordError where
  | PreconditionViolation : CoordError
deriving DecidableEq, Repr

/-- Modelled from the spec: the body of `ParallelReplicas::sendQuery`
(declared at ParallelReplicas.h:39-40) is not in the repository.  Spec
section 4.1: "sends identical query text/parameters to every registered
connection; fails with a precondition error if called more than once";
the `sent_query` flag (ParallelReplicas.h:116) records the single
transition.  The wire transmission itself is external I/O and is not
modelled. -/
def sendQuery (c : ParallelReplicas) : Except CoordError ParallelReplicas :=
  if c.sent_query then .error .PreconditionViolation
  else .ok { c with sent_query := true }

/-- Modelled from the spec: the body of
`ParallelReplicas::receivePacket` (declared at ParallelReplicas.h:43)
is not in the repository.  Spec section 4.1: callable only after
`sendQuery`; reads one packet from the chosen active connection and
returns it; "if the packet is Exception or EndOfStream, that connection
is invalidated ... but the packet itself is still returned to the
caller".  The unspecified choice among ready replicas is the explicit
argument `fd`; the call yields `none` when `fd` does not name a live
replica with pending data (such a replica cannot be chosen). -/
def receivePacket (c : ParallelReplicas) (fd : Nat) :
    Option (Packet × ParallelReplicas) :=
  if c.sent_query = false then none else
  match lookupReplica c.replica_map fd with
  | some (some conn) =>
      match conn.stream with
      | [] => none
      | p :: rest =>
          let c1 : ParallelReplicas :=
            { c with replica_map := setReplica c.replica_map fd (some ⟨rest⟩) }
          if p.isTerminal then some (p, invalidateReplica c1 fd)
          else some (p, c1)
  | _ => none

/-- Iterate `receivePacket` along a schedule of socket choices,
collecting the trace of (socket id, packet) receive events; choices on
which `receivePacket` yields nothing are skipped. -/
def receiveSteps : List Nat → ParallelReplicas → List (Nat × Packet) × ParallelReplicas
  | [], c => ([], c)
  | fd :: rest, c =>
      match receivePacket c fd with
      | none => receiveSteps rest c
      | some (p, c') =>
          let r := receiveSteps rest c'
          ((fd, p) :: r.1, r.2)

/-- Modelled from the spec: the body of `ParallelReplicas::sendCancel`
(declared at ParallelReplicas.h:52) is not in the repository.  Spec
section 4.1: "broadcasts a cancellation signal to every registered
connection ...; idempotent"; it "never mutates the ReplicaSet or the
active count, only signals remote termination" (section 4.1, `size()` /
`hasActiveReplicas()` bullet).  The broadcast is recorded in
`cancel_signalled`; a second call is a no-op. -/
def sendCancel (c : ParallelReplicas) : ParallelReplicas :=
  if c.cancelled then c
  else { c with cancelled := true, cancel_signalled := liveIds c.replica_map }

/-- One pass of `sendExternalTablesData` over the raw map: a failing
send invalidates that entry (connection dropped, one decrement counted)
and the iteration continues with the rest. -/
def sendExternalAux (fails : Nat → Bool) : ReplicaMap → ReplicaMap × Nat
  | [] => ([], 0)
  | (fd, some conn) :: rest =>
      let r := sendExternalAux fails rest
      if fails fd then ((fd, none) :: r.1, r.2 + 1)
      else ((fd, some conn) :: r.1, r.2)
  | (fd, none) :: rest =>
      let r := sendExternalAux fails rest
      ((fd, none) :: r.1, r.2)

/-- Modelled from the spec: the body of
`ParallelReplicas::sendExternalTablesData` (declared at
ParallelReplicas.h:36) is not in the repository.  Spec section 4.1:
"pushes external-table payloads to every registered connection before
the query; a send failure on one connection invalidates that connection
and does not abort sends to the others"; no error is surfaced to the
caller (section 7).  Which sends fail is the oracle `fails`. -/
def sendExternalTablesData (c : ParallelReplicas) (fails : Nat → Bool) :
    ParallelReplicas :=
  let r := sendExternalAux fails c.replica_map
  { c with
    replica_map := r.1
    active_replica_count := c.active_replica_count - r.2 }

/-- Modelled from the spec: the body of `ParallelReplicas::disconnect`
(declared at ParallelReplicas.h:49) is not in the repository.  Spec
section 4.1: "force-terminates every registered connection
immediately"; every live entry is invalidated in place, keys are
kept. -/
def disconnect (c : ParallelReplicas) : ParallelReplicas :=
  { c with
    replica_map := c.replica_map.map (fun p => (p.1, (none : Option Connection)))
    active_replica_count := c.active_replica_count - (liveIds c.replica_map).length }

/-- The drain accumulator of ParallelReplicas.h:54-57: the result
starts as EndOfStream and each received Exception packet overwrites it,
so the final value is the last received Exception, if any. -/
def drainAcc (acc : Packet) (p : Packet) : Packet :=
  match p with
  | .Exception e => .Exception e
  | _ => acc

/-- Modelled from the spec: the body of `ParallelReplicas::drain`
(declared at ParallelReplicas.h:58) is not in the repository.  Header
doc comment (ParallelReplicas.h:54-57): on each replica read and skip
all packets up to EndOfStream or Exception; return EndOfStream if no
exception was received, otherwise the last received packet of type
Exception.  The loop runs while `hasActiveReplicas`; the schedule of
socket choices is explicit, and the call yields `none` when the
schedule is exhausted or picks an unreadable replica while replicas
remain active.  Also returns the trace of received packets. -/
def drainLoop : List Nat → ParallelReplicas → Packet →
    Option (Packet × List Packet × ParallelReplicas)
  | [], c, acc =>
      if hasActiveReplicas c then none else some (acc, [], c)
  | fd :: rest, c, acc =>
      if hasActiveReplicas c then
        match receivePacket c fd with
        | none => none
        | some (p, c') =>
            match drainLoop rest c' (drainAcc acc p) with
            | none => none
            | some (res, tr, c'') => some (res, p :: tr, c'')
      else some (acc, [], c)

/-- `drain` run from the initial EndOfStream accumulator. -/
def drain (c : ParallelReplicas) (sched : List Nat) :
    Option (Packet × List Packet × ParallelReplicas) :=
  drainLoop sched c .EndOfStream

/-! ## ClusterDiscovery (src/src/Interpreters/ClusterDiscovery.h) -/

/-- One discovered cluster member (ClusterDiscovery.h:38-48): its
address string "host:port". -/
structure NodeInfo where
  address : String
deriving DecidableEq, Repr

/-- `NodesInfo` of ClusterDiscovery.h:51: node uuid to address,
modelled as an association list. -/
abbrev NodesInfo := List (String × NodeInfo)

/-- First-match lookup of a node by uuid. -/
def lookupNode : NodesInfo → String → Option NodeInfo
  | [], _ => none
  | (k, v) :: rest, u => if k = u then some v else lookupNode rest u

/-- The listed uuids and the key set of a NodesInfo are equal as sets:
every listed uuid is a key and every key is listed. -/
def sameUuidSet (node_uuids : List String) (nodes : NodesInfo) : Bool :=
  node_uuids.all (fun u => (lookupNode nodes u).isSome) &&
    nodes.all (fun p => node_uuids.contains p.1)

/-- Modelled from the spec: the body of
`ClusterDiscovery::needUpdate` (declared at ClusterDiscovery.h:74) is
not in the repository.  Spec section 4.2: "needUpdate(uuids, nodes):
true iff the UUID set of `nodes` differs from `uuids`, or any shared
UUID's address differs — a pure set/map-equality check".  The freshly
fetched address of each listed uuid, against which the stored address
is compared, is supplied by the oracle `fetched` (spec:
"lists current member UUIDs, fetches their serialized addresses, and
compares the result against the cluster's last NodesInfo"). -/
def needUpdate (node_uuids : List String) (fetched : String → NodeInfo)
    (nodes : NodesInfo) : Bool :=
  !(sameUuidSet node_uuids nodes &&
    node_uuids.all (fun u =>
      match lookupNode nodes u with
      | some info => info.address == (fetched u).address
      | none => false))

/-- Modelled from the spec: the body of `ClusterDiscovery::getNodes`
(declared at ClusterDiscovery.h:70) is not in the repository.  Spec
section 4.2: fetch the serialized address of each listed member uuid;
the fetch is the oracle `fetched`. -/
def getNodes (node_uuids : List String) (fetched : String → NodeInfo) : NodesInfo :=
  node_uuids.map (fun u => (u, fetched u))

/-- Immutable published topology view (spec section 3): an ordered list
of member addresses.  The `version` field models the identity of the
published reference: republishing builds a fresh snapshot with a new
version, so two snapshots with different versions are different
objects. -/
structure TopologySnapshot where
  version : Nat
  addresses : List String
deriving DecidableEq, Repr

/-- `ClusterInfo` of ClusterDiscovery.h:53-60 plus the published
topology reference: cluster name, coordination-service root, last
NodesInfo, and the currently published snapshot. -/
structure ClusterInfo where
  name : String
  zk_root : String
  nodes_info : NodesInfo
  published : TopologySnapshot
deriving DecidableEq, Repr

/-- Build the snapshot published for a NodesInfo: the ordered list of
member addresses, under a fresh version. -/
def buildSnapshot (version : Nat) (nodes : NodesInfo) : TopologySnapshot :=
  { version := version, addresses := nodes.map (fun p => p.2.address) }

/-- Modelled from the spec: the body of
`ClusterDiscovery::updateCluster` (declared at ClusterDiscovery.h:75-76)
is not in the repository.  Spec section 4.2: list current member uuids,
fetch their addresses, compare against the last NodesInfo via
`needUpdate`; "equivalent sets (same UUIDs, same addresses) skip
republishing"; "a genuine change rebuilds an immutable TopologySnapshot
and atomically replaces the published reference".  The uuid listing and
the fetch are explicit arguments. -/
def updateCluster (info : ClusterInfo) (node_uuids : List String)
    (fetched : String → NodeInfo) : ClusterInfo :=
  if needUpdate node_uuids fetched info.nodes_info then
    let new_nodes := getNodes node_uuids fetched
    { info with
      nodes_info := new_nodes
      published := buildSnapshot (info.published.version + 1) new_nodes }
  else info

/-! ## Derived trace functions and concrete instances -/

/-- A concrete coordinator after `sendQuery`: replica 1 about to raise
an exception, replica 2 with one data block then an exception, replica
3 already invalidated. -/
def pcW : ParallelReplicas :=
  { replica_map :=
      [(1, some ⟨[.Exception 7]⟩), (2, some ⟨[.Data 0, .Exception 9]⟩), (3, none)]
    active_replica_count := 2
    sent_query := true
    cancelled := false
    cancel_signalled := [] }

/-- The state of `pcW` after reading replica 1's Exception packet:
entry 1 invalidated, active count down to 1. -/
def pcW1 : ParallelReplicas :=
  { replica_map :=
      [(1, none), (2, some ⟨[.Data 0, .Exception 9]⟩), (3, none)]
    active_replica_count := 1
    sent_query := true
    cancelled := false
    cancel_signalled := [] }

/-- A concrete single-connection coordinator before `sendQuery`. -/
def pcW0 : ParallelReplicas := mkParallelReplicas [(1, ⟨[.EndOfStream]⟩)]

/-- `pcW0` after its query was sent. -/
def pcW0q : ParallelReplicas := { pcW0 with sent_query := true }

/-- `pcW` after draining along schedule [1, 2, 2]: every replica
invalidated, none active. -/
def pcWdrained : ParallelReplicas :=
  { replica_map := [(1, none), (2, none), (3, none)]
    active_replica_count := 0
    sent_query := true
    cancelled := false
    cancel_signalled := [] }

/-- The stored nodes of the spec scenario: n1 at h1:9000, n2 at
h2:9000. -/
def nodesW : NodesInfo := [("n1", ⟨"h1:9000"⟩), ("n2", ⟨"h2:9000"⟩)]

/-- The uuid listing of the spec scenario. -/
def uuidsW : List String := ["n1", "n2"]

/-- A fetch returning the same addresses as `nodesW`. -/
def fetchW : String → NodeInfo :=
  fun u => if u = "n2" then ⟨"h2:9000"⟩ else ⟨"h1:9000"⟩

/-- A fetch in which n2 moved to h2:9001. -/
def fetchW' : String → NodeInfo :=
  fun u => if u = "n2" then ⟨"h2:9001"⟩ else ⟨"h1:9000"⟩

/-- A concrete cluster holding `nodesW` with a published snapshot. -/
def infoW : ClusterInfo :=
  { name := "c1"
    zk_root := "/discovery/c1"
    nodes_info := nodesW
    published := ⟨0, ["h1:9000", "h2:9000"]⟩ }

/-! ## Helper lemmas -/

theorem lookupReplica_setReplica_ne (m : ReplicaMap) (fd fd' : Nat)
    (v : Option Connection) (h : fd ≠ fd') :
    lookupReplica (setReplica m fd' v) fd = lookupReplica m fd := by
  induction m with
  | nil => rfl
  | cons p rest ih =>
    obtain ⟨k, w⟩ := p
    by_cases hk : k = fd'
    · subst hk
      simp [setReplica, lookupReplica, Ne.symm h]
    · simp [setReplica, lookupReplica, hk, ih]

theorem lookupReplica_setReplica_isSome (m : ReplicaMap) (fd : Nat)
    (v : Option Connection) (h : (lookupReplica m fd).isSome) :
    lookupReplica (setReplica m fd v) fd = some v := by
  induction m with
  | nil => simp [lookupReplica] at h
  | cons p rest ih =>
    obtain ⟨k, w⟩ := p
    by_cases hk : k = fd
    · subst hk
      simp [setReplica, lookupReplica]
    · simp [setReplica, lookupReplica, hk] at h ⊢
      exact ih h

theorem setReplica_length (m : ReplicaMap) (fd : Nat) (v : Option Connection) :
    (setReplica m fd v).length = m.length := by
  induction m with
  | nil => rfl
  | cons p rest ih =>
    obtain ⟨k, w⟩ := p
    by_cases hk : k = fd <;> simp [setReplica, hk, ih]

theorem receivePacket_eq_some (c : ParallelReplicas) (fd : Nat) (p : Packet)
    (c' : ParallelReplicas) (h : receivePacket c fd = some (p, c')) :
    c.sent_query = true ∧
    ∃ conn rest, lookupReplica c.replica_map fd = some (some conn) ∧
      conn.stream = p :: rest ∧
      c' = (if p.isTerminal
            then invalidateReplica
              { c with replica_map := setReplica c.replica_map fd (some ⟨rest⟩) } fd
            else { c with replica_map := setReplica c.replica_map fd (some ⟨rest⟩) }) := by
  cases hb : c.sent_query with
  | false => rw [receivePacket, hb] at h; simp at h
  | true =>
    refine ⟨rfl, ?_⟩
    rw [receivePacket, hb] at h
    simp only [Bool.true_eq_false, if_false] at h
    split at h
    case h_2 => cases h
    case h_1 conn heq =>
      split at h
      case h_1 hst => cases h
      case h_2 p0 rest hst =>
        split at h
        case isTrue ht =>
          rw [Option.some.injEq, Prod.mk.injEq] at h
          obtain ⟨hp, hc⟩ := h
          subst hp
          exact ⟨conn, rest, heq, hst, by rw [if_pos ht, hc]⟩
        case isFalse ht =>
          rw [Option.some.injEq, Prod.mk.injEq] at h
          obtain ⟨hp, hc⟩ := h
          subst hp
          exact ⟨conn, rest, heq, hst, by rw [if_neg ht, hc]⟩

theorem receivePacket_size (c : ParallelReplicas) (fd : Nat) (p : Packet)
    (c' : ParallelReplicas) (h : receivePacket c fd = some (p, c')) :
    size c' = size c := by
  obtain ⟨-, conn, rest, -, -, hc⟩ := receivePacket_eq_some c fd p c' h
  subst hc
  by_cases ht : p.isTerminal <;>
    simp [ht, size, invalidateReplica, setReplica_length]

theorem receivePacket_invalid_none (c : ParallelReplicas) (fd : Nat)
    (h : lookupReplica c.replica_map fd = some none) :
    receivePacket c fd = none := by
  cases hb : c.sent_query <;> simp [receivePacket, hb, h]

theorem receivePacket_preserves_invalid (c : ParallelReplicas) (fd fd' : Nat)
    (p : Packet) (c' : ParallelReplicas)
    (hinv : lookupReplica c.replica_map fd = some none)
    (h : receivePacket c fd' = some (p, c')) :
    lookupReplica c'.replica_map fd = some none := by
  obtain ⟨-, conn, rest, hl, -, hc⟩ := receivePacket_eq_some c fd' p c' h
  have hne : fd ≠ fd' := by
    intro he
    subst he
    rw [hinv] at hl
    cases hl
  subst hc
  by_cases ht : p.isTerminal <;>
    simp [ht, invalidateReplica, lookupReplica_setReplica_ne _ _ _ _ hne, hinv]

theorem receiveSteps_excludes_invalid (sched : List Nat) (c : ParallelReplicas)
    (fd : Nat) (h : lookupReplica c.replica_map fd = some none) :
    ∀ q ∈ (receiveSteps sched c).1, q.1 ≠ fd := by
  induction sched generalizing c with
  | nil =>
    intro q hq
    simp [receiveSteps] at hq
  | cons fd' rest ih =>
    intro q hq
    cases hr : receivePacket c fd' with
    | none =>
      rw [receiveSteps, hr] at hq
      exact ih c h q hq
    | some pc =>
      obtain ⟨p, c'⟩ := pc
      rw [receiveSteps, hr] at hq
      rcases List.mem_cons.mp hq with hq | hq
      · subst hq
        intro he
        have he' : fd' = fd := he
        rw [he'] at hr
        rw [receivePacket_invalid_none c fd h] at hr
        cases hr
      · exact ih c' (receivePacket_preserves_invalid c fd fd' p c' h hr) q hq

theorem drainLoop_eq_some (sched : List Nat) (c : ParallelReplicas)
    (acc res : Packet) (tr : List Packet) (c' : ParallelReplicas)
    (h : drainLoop sched c acc = some (res, tr, c')) :
    res = tr.foldl drainAcc acc ∧ size c' = size c ∧ hasActiveReplicas c' = false := by
  induction sched generalizing c acc res tr c' with
  | nil =>
    rw [drainLoop] at h
    split at h
    · cases h
    case isFalse hact =>
      cases h
      exact ⟨rfl, rfl, by simpa using hact⟩
  | cons fd rest ih =>
    rw [drainLoop] at h
    split at h
    case isTrue hact =>
      split at h
      case h_1 => cases h
      case h_2 p c₂ hr =>
        split at h
        case h_1 => cases h
        case h_2 res₂ tr₂ c₃ hd =>
          cases h
          obtain ⟨ih1, ih2, ih3⟩ := ih c₂ (drainAcc acc p) _ _ _ hd
          exact ⟨by simpa using ih1,
                 by rw [ih2, receivePacket_size c fd p c₂ hr], ih3⟩
    case isFalse hact =>
      cases h
      exact ⟨rfl, rfl, by simpa using hact⟩

theorem drainAcc_of_not_exc (acc p : Packet) (h : p.isExc = false) :
    drainAcc acc p = acc := by
  cases p <;> simp_all [drainAcc, Packet.isExc]

theorem foldl_drainAcc_of_no_exc (tr : List Packet) (acc : Packet)
    (h : ∀ p ∈ tr, p.isExc = false) : tr.foldl drainAcc acc = acc := by
  induction tr generalizing acc with
  | nil => rfl
  | cons p rest ih =>
    rw [List.foldl_cons, drainAcc_of_not_exc acc p (h p (List.mem_cons_self p rest))]
    exact ih acc (fun q hq => h q (List.mem_cons_of_mem _ hq))

theorem foldl_drainAcc_exc (tr : List Packet) (acc : Packet)
    (h : ∃ p ∈ tr, p.isExc = true) :
    ∃ e, tr.foldl drainAcc acc = .Exception e := by
  induction tr generalizing acc with
  | nil =>
    obtain ⟨p, hp, -⟩ := h
    cases hp
  | cons p rest ih =>
    rw [List.foldl_cons]
    by_cases hrest : ∃ q ∈ rest, q.isExc = true
    · exact ih (drainAcc acc p) hrest
    · have hrest' : ∀ q ∈ rest, q.isExc = false := by
        intro q hq
        by_contra hb
        exact hrest ⟨q, hq, by simpa using hb⟩
      obtain ⟨q, hq, hqe⟩ := h
      rcases List.mem_cons.mp hq with rfl | hq'
      · cases q with
        | Exception e =>
          exact ⟨e, foldl_drainAcc_of_no_exc rest _ hrest'⟩
        | Data b => cases hqe
        | Progress => cases hqe
        | ProfileInfo => cases hqe
        | EndOfStream => cases hqe
        | Log => cases hqe
      · exact absurd hqe (by simp [hrest' q hq'])

theorem liveIds_cons_none (fd : Nat) (rest : ReplicaMap) :
    liveIds ((fd, none) :: rest) = liveIds rest := by
  simp [liveIds, List.filterMap_cons]

theorem liveIds_cons_some (fd : Nat) (conn : Connection) (rest : ReplicaMap) :
    liveIds ((fd, some conn) :: rest) = fd :: liveIds rest := by
  simp [liveIds, List.filterMap_cons]

theorem sendExternalAux_spec (fails : Nat → Bool) (m : ReplicaMap) :
    sendExternalAux fails m =
      (m.map (fun p => if p.2.isSome && fails p.1 then (p.1, none) else p),
       (liveIds m).countP fails) := by
  induction m with
  | nil => rfl
  | cons p rest ih =>
    obtain ⟨fd, v⟩ := p
    cases v with
    | none =>
      simp [sendExternalAux, liveIds_cons_none, ih]
    | some conn =>
      by_cases hf : fails fd <;>
        simp [sendExternalAux, liveIds_cons_some, List.countP_cons, ih, hf]

theorem sameUuidSet_lookup_isSome (node_uuids : List String) (nodes : NodesInfo)
    (h : sameUuidSet node_uuids nodes = true) :
    ∀ u ∈ node_uuids, (lookupNode nodes u).isSome := by
  intro u hu
  have h1 := (Bool.and_eq_true _ _).mp h |>.1
  exact List.all_eq_true.mp h1 u hu

theorem needUpdate_eq_false_iff (node_uuids : List String)
    (fetched : String → NodeInfo) (nodes : NodesInfo) :
    needUpdate node_uuids fetched nodes = false ↔
      (sameUuidSet node_uuids nodes = true ∧
       ∀ u ∈ node_uuids, lookupNode nodes u = some (fetched u)) := by
  rw [needUpdate, Bool.not_eq_false', Bool.and_eq_true, List.all_eq_true]
  constructor
  · rintro ⟨hset, hall⟩
    refine ⟨hset, fun u hu => ?_⟩
    have := hall u hu
    cases hl : lookupNode nodes u with
    | none => rw [hl] at this; cases this
    | some info =>
      rw [hl] at this
      have haddr : info.address = (fetched u).address := by
        simpa using this
      have : info = fetched u := by
        cases info
        cases hfu : fetched u
        simp_all
      rw [this]
  · rintro ⟨hset, hall⟩
    refine ⟨hset, fun u hu => ?_⟩
    rw [hall u hu]
    simp

/-! ## Claim theorems -/

/-- Claim C1: after `sendQuery`, when `receivePacket` returns an
Exception or EndOfStream packet, the connection that produced it is
invalidated — excluded from future reads, active count decremented by
one — yet that packet is still returned to the caller (it is the
`some` result); an invalidated replica can never again be the source of
a packet, so no subsequent `receivePacket` call returns a packet
attributed to a replica that was already invalidated. -/
theorem receivePacket_invalidates_and_excludes (c : ParallelReplicas) (fd : Nat) :
    (∀ p c', receivePacket c fd = some (p, c') → p.isTerminal = true →
       lookupReplica c'.replica_map fd = some none ∧
       c'.active_replica_count = c.active_replica_count - 1) ∧
    (lookupReplica c.replica_map fd = some none → receivePacket c fd = none) ∧
    (∀ sched, lookupReplica c.replica_map fd = some none →
       ∀ q ∈ (receiveSteps sched c).1, q.1 ≠ fd) := by
  refine ⟨?_, receivePacket_invalid_none c fd,
          fun sched h => receiveSteps_excludes_invalid sched c fd h⟩
  intro p c' h ht
  obtain ⟨-, conn, rest, hl, -, hc⟩ := receivePacket_eq_some c fd p c' h
  rw [if_pos ht] at hc
  subst hc
  constructor
  · apply lookupReplica_setReplica_isSome
    rw [lookupReplica_setReplica_isSome _ _ _ (by rw [hl]; rfl)]
    rfl
  · rfl

/-- Claim C1 witness: on the concrete coordinator `pcW`, reading
replica 1 yields its Exception packet, leaves the entry invalidated
with the active count decremented, an invalidated replica (3) yields
nothing, and a trace through schedule [3, 1, 3] never attributes a
packet to replica 3. -/
theorem receivePacket_invalidates_and_excludes_witness :
    (lookupReplica pcW1.replica_map 1 = some none ∧
       pcW1.active_replica_count = pcW.active_replica_count - 1) ∧
    receivePacket pcW 3 = none ∧
    ∀ q ∈ (receiveSteps [3, 1, 3] pcW).1, q.1 ≠ 3 := by
  refine ⟨?_, ?_, ?_⟩
  · exact (receivePacket_invalidates_and_excludes pcW 1).1 (.Exception 7) pcW1
      (by decide) (by decide)
  · exact (receivePacket_invalidates_and_excludes pcW 3).2.1 (by decide)
  · exact (receivePacket_invalidates_and_excludes pcW 3).2.2 [3, 1, 3] (by decide)

/-- Claim C3: `sendQuery` may run at most once per coordinator: a
second call after one successful call fails with
PreconditionViolation, and any call on a coordinator that has already
sent the query fails with PreconditionViolation. -/
theorem sendQuery_at_most_once (c c₁ : ParallelReplicas) :
    (sendQuery c = .ok c₁ → sendQuery c₁ = .error .PreconditionViolation) ∧
    (c.sent_query = true → sendQuery c = .error .PreconditionViolation) := by
  constructor
  · intro h
    rw [sendQuery] at h
    split at h
    · cases h
    · cases h
      rw [sendQuery]
      rfl
  · intro h
    rw [sendQuery, if_pos h]

/-- Claim C3 witness: on the concrete single-connection coordinator,
the first `sendQuery` succeeds and the second fails with
PreconditionViolation. -/
theorem sendQuery_at_most_once_witness :
    sendQuery pcW0q = .error .PreconditionViolation :=
  (sendQuery_at_most_once pcW0 pcW0q).1 (by rfl)

/-- Claim C7: `sendCancel` changes neither the ReplicaSet nor the
active replica count, so `hasActiveReplicas()` and `size()` observed
after `sendCancel()` equal their values at the moment cancel was
issued. -/
theorem sendCancel_preserves_replicas (c : ParallelReplicas) :
    (sendCancel c).replica_map = c.replica_map ∧
    (sendCancel c).active_replica_count = c.active_replica_count ∧
    hasActiveReplicas (sendCancel c) = hasActiveReplicas c ∧
    size (sendCancel c) = size c := by
  rw [sendCancel]
  split <;> simp [hasActiveReplicas, size]

/-- Claim C8: `sendCancel` broadcasts the cancellation signal to every
registered connection that still holds a live session, and is
idempotent: a second call succeeds and leaves the coordinator in the
same state as after the first. -/
theorem sendCancel_broadcast_idempotent (c : ParallelReplicas) :
    sendCancel (sendCancel c) = sendCancel c ∧
    (sendCancel c).cancelled = true ∧
    (c.cancelled = false →
      ∀ fd ∈ liveIds c.replica_map, fd ∈ (sendCancel c).cancel_signalled) := by
  by_cases h : c.cancelled = true
  · have h1 : sendCancel c = c := by rw [sendCancel, if_pos h]
    refine ⟨?_, ?_, ?_⟩
    · rw [h1, h1]
    · rw [h1]
      exact h
    · intro hf
      rw [h] at hf
      exact Bool.noConfusion hf
  · have h1 : sendCancel c =
        { c with cancelled := true, cancel_signalled := liveIds c.replica_map } := by
      rw [sendCancel, if_neg h]
    refine ⟨?_, ?_, ?_⟩
    · rw [h1]
      rfl
    · rw [h1]
    · intro _ fd hfd
      rw [h1]
      exact hfd

/-- Claim C8 witness: on the concrete coordinator `pcW`, cancelling
twice equals cancelling once, and both live replicas (1 and 2) receive
the cancellation signal. -/
theorem sendCancel_broadcast_idempotent_witness :
    sendCancel (sendCancel pcW) = sendCancel pcW ∧
    1 ∈ (sendCancel pcW).cancel_signalled ∧ 2 ∈ (sendCancel pcW).cancel_signalled := by
  refine ⟨(sendCancel_broadcast_idempotent pcW).1, ?_, ?_⟩
  · exact (sendCancel_broadcast_idempotent pcW).2.2 (by decide) 1 (by decide)
  · exact (sendCancel_broadcast_idempotent pcW).2.2 (by decide) 2 (by decide)

/-- Claim C6: `size()` returns the same value at every point of the
coordinator's lifetime: no operation — `receivePacket` (including one
that invalidates a replica), `sendCancel`, `sendExternalTablesData`,
`disconnect`, `drain`, `sendQuery` — changes the number of entries
counted by `size()`. -/
theorem size_lifetime_invariant (c : ParallelReplicas) (fd : Nat)
    (fails : Nat → Bool) (sched : List Nat) :
    (∀ p c', receivePacket c fd = some (p, c') → size c' = size c) ∧
    size (sendCancel c) = size c ∧
    size (sendExternalTablesData c fails) = size c ∧
    size (disconnect c) = size c ∧
    (∀ res tr c', drain c sched = some (res, tr, c') → size c' = size c) ∧
    (∀ c', sendQuery c = .ok c' → size c' = size c) := by
  refine ⟨fun p c' h => receivePacket_size c fd p c' h, ?_, ?_, ?_, ?_, ?_⟩
  · rw [sendCancel]
    split <;> rfl
  · simp [size, sendExternalTablesData, sendExternalAux_spec]
  · simp [size, disconnect]
  · intro res tr c' h
    exact (drainLoop_eq_some sched c _ res tr c' h).2.1
  · intro c' h
    rw [sendQuery] at h
    split at h
    · cases h
    · cases h
      rfl

/-- Claim C6 witness: on the concrete coordinator `pcW`, the size is
still 3 after a read that invalidates replica 1, and after a cancel. -/
theorem size_lifetime_invariant_witness :
    size pcW1 = size pcW ∧ size (sendCancel pcW) = size pcW := by
  constructor
  · exact (size_lifetime_invariant pcW 1 (fun n => n == 2) [1, 2, 2]).1
      (.Exception 7) pcW1 (by decide)
  · exact (size_lifetime_invariant pcW 1 (fun n => n == 2) [1, 2, 2]).2.1

/-- Claim C9: a send failure during `sendExternalTablesData`
invalidates only the failing connections: each entry is transformed
independently (a live failing entry loses its connection, every other
entry is untouched), the active count drops exactly by the number of
live failing entries, the sends to the remaining connections are not
aborted (every live non-failing connection survives unchanged), and no
error is surfaced — the operation totally returns a coordinator. -/
theorem sendExternalTablesData_isolates_failure (c : ParallelReplicas)
    (fails : Nat → Bool) :
    ((sendExternalTablesData c fails).replica_map =
       c.replica_map.map
         (fun p => if p.2.isSome && fails p.1 then (p.1, none) else p)) ∧
    ((sendExternalTablesData c fails).active_replica_count =
       c.active_replica_count - (liveIds c.replica_map).countP fails) ∧
    (∀ fd conn, (fd, some conn) ∈ c.replica_map → fails fd = false →
       (fd, some conn) ∈ (sendExternalTablesData c fails).replica_map) := by
  have hmap : (sendExternalTablesData c fails).replica_map =
      c.replica_map.map
        (fun p => if p.2.isSome && fails p.1 then (p.1, none) else p) := by
    simp [sendExternalTablesData, sendExternalAux_spec]
  refine ⟨hmap, by simp [sendExternalTablesData, sendExternalAux_spec], ?_⟩
  intro fd conn hmem hf
  rw [hmap]
  have hfix : (fun p => if p.2.isSome && fails p.1 then (p.1, none) else p)
      ((fd, some conn) : Nat × Option Connection) = (fd, some conn) := by
    simp [hf]
  have h2 := List.mem_map_of_mem
    (fun p => if p.2.isSome && fails p.1 then (p.1, none) else p) hmem
  rw [hfix] at h2
  exact h2

/-- Claim C9 witness: on `pcW` with the send to replica 2 failing,
replica 1 keeps its live connection. -/
theorem sendExternalTablesData_isolates_failure_witness :
    (1, some (⟨[.Exception 7]⟩ : Connection)) ∈
      (sendExternalTablesData pcW (fun n => n == 2)).replica_map :=
  (sendExternalTablesData_isolates_failure pcW (fun n => n == 2)).2.2 1
    ⟨[.Exception 7]⟩ (by decide) (by decide)

/-- Claim C2: `drain()` returns EndOfStream iff no replica produced an
Exception packet during draining; if at least one Exception packet was
received, drain returns an Exception packet. -/
theorem drain_endOfStream_iff_no_exception (c : ParallelReplicas)
    (sched : List Nat) (res : Packet) (tr : List Packet) (c' : ParallelReplicas)
    (h : drain c sched = some (res, tr, c')) :
    (res = .EndOfStream ↔ ∀ p ∈ tr, p.isExc = false) ∧
    ((∃ p ∈ tr, p.isExc = true) → ∃ e, res = .Exception e) := by
  have hres : res = tr.foldl drainAcc .EndOfStream :=
    (drainLoop_eq_some sched c _ res tr c' h).1
  constructor
  · constructor
    · intro he
      by_contra hb
      push_neg at hb
      obtain ⟨p, hp, hpe⟩ := hb
      have hex : ∃ q ∈ tr, q.isExc = true := ⟨p, hp, by simpa using hpe⟩
      obtain ⟨e, hexc⟩ := foldl_drainAcc_exc tr .EndOfStream hex
      rw [hres, hexc] at he
      exact Packet.noConfusion he
    · intro hno
      rw [hres, foldl_drainAcc_of_no_exc tr _ hno]
  · intro hex
    obtain ⟨e, hexc⟩ := foldl_drainAcc_exc tr .EndOfStream hex
    exact ⟨e, by rw [hres, hexc]⟩

/-- Claim C2 witness: draining `pcW` along schedule [1, 2, 2] receives
an Exception, so the result is an Exception packet and not
EndOfStream. -/
theorem drain_endOfStream_iff_no_exception_witness :
    (∃ e, (Packet.Exception 9 : Packet) = .Exception e) ∧
    ¬ ((Packet.Exception 9 : Packet) = .EndOfStream) := by
  have hth := drain_endOfStream_iff_no_exception pcW [1, 2, 2] (.Exception 9)
    [.Exception 7, .Data 0, .Exception 9] pcWdrained (by decide)
  refine ⟨hth.2 (by decide), ?_⟩
  intro he
  have := hth.1.mp he
  exact absurd (this (.Exception 7) (by decide)) (by decide)

/-- Claim C10: when at least one Exception packet is received during
draining, `drain()` returns specifically the last Exception packet
received: for any split of the received trace around an Exception
packet after which no further Exception occurs, the result is that
packet. -/
theorem drain_returns_last_exception (c : ParallelReplicas) (sched : List Nat)
    (res : Packet) (tr t1 t2 : List Packet) (c' : ParallelReplicas) (e : Nat)
    (h : drain c sched = some (res, tr, c'))
    (hsplit : tr = t1 ++ .Exception e :: t2)
    (hafter : ∀ p ∈ t2, p.isExc = false) :
    res = .Exception e := by
  have hres : res = tr.foldl drainAcc .EndOfStream :=
    (drainLoop_eq_some sched c _ res tr c' h).1
  rw [hres, hsplit, List.foldl_append, List.foldl_cons]
  exact foldl_drainAcc_of_no_exc t2 _ hafter

/-- Claim C10 witness: draining `pcW` along schedule [1, 2, 2] receives
Exception 7, then a Data block, then Exception 9; the result is the
final Exception received, Exception 9. -/
theorem drain_returns_last_exception_witness :
    drain pcW [1, 2, 2] =
      some (.Exception 9, [.Exception 7, .Data 0, .Exception 9], pcWdrained) ∧
    (Packet.Exception 9 : Packet) = .Exception 9 :=
  ⟨by decide,
   drain_returns_last_exception pcW [1, 2, 2] (.Exception 9)
     [.Exception 7, .Data 0, .Exception 9] [.Exception 7, .Data 0] [] pcWdrained 9
     (by decide) rfl (by decide)⟩

/-- Claim C4: `needUpdate(uuids, nodes)` returns true iff the uuid key
set of `nodes` differs from the given uuid set, or some uuid present in
both has a different address; in particular, on input identical to the
stored nodes it returns false, and after changing one node's address it
returns true. -/
theorem needUpdate_set_and_address_check (node_uuids : List String)
    (fetched : String → NodeInfo) (nodes : NodesInfo) :
    (needUpdate node_uuids fetched nodes = true ↔
       (sameUuidSet node_uuids nodes = false ∨
        ∃ u ∈ node_uuids, ∃ info, lookupNode nodes u = some info ∧
          info.address ≠ (fetched u).address)) ∧
    needUpdate uuidsW fetchW nodesW = false ∧
    needUpdate uuidsW fetchW' nodesW = true := by
  refine ⟨⟨?_, ?_⟩, by decide, by decide⟩
  · intro h
    by_cases hset : sameUuidSet node_uuids nodes = true
    · right
      by_contra hb
      push_neg at hb
      have hfalse : needUpdate node_uuids fetched nodes = false := by
        rw [needUpdate_eq_false_iff]
        refine ⟨hset, fun u hu => ?_⟩
        have hs := sameUuidSet_lookup_isSome node_uuids nodes hset u hu
        cases hl : lookupNode nodes u with
        | none => rw [hl] at hs; cases hs
        | some info =>
          have haddr := hb u hu info hl
          have hinfo : info = fetched u := by
            cases info
            cases hfe : fetched u
            simp_all
          rw [hinfo]
      rw [hfalse] at h
      exact Bool.noConfusion h
    · exact Or.inl (by simpa using hset)
  · intro h
    by_contra hb
    have hfalse : needUpdate node_uuids fetched nodes = false := by
      simpa using hb
    obtain ⟨hset, hall⟩ := (needUpdate_eq_false_iff _ _ _).mp hfalse
    rcases h with h | ⟨u, hu, info, hl, hne⟩
    · rw [hset] at h
      exact Bool.noConfusion h
    · rw [hall u hu] at hl
      have heq : fetched u = info := Option.some.inj hl
      rw [← heq] at hne
      exact hne rfl

/-- Claim C5: a refresh whose listed uuids and addresses are
equivalent to the cluster's last NodesInfo leaves the cluster — in
particular the published TopologySnapshot reference — unchanged; a
genuine change (needUpdate true) builds a new snapshot from the new
nodes and replaces the published reference with a distinct one, never
editing the old snapshot in place (the new reference differs from the
old, whose value is untouched by the pure update). -/
theorem updateCluster_republish_iff_change (info : ClusterInfo)
    (node_uuids : List String) (fetched : String → NodeInfo) :
    ((sameUuidSet node_uuids info.nodes_info = true ∧
      ∀ u ∈ node_uuids, lookupNode info.nodes_info u = some (fetched u)) →
        updateCluster info node_uuids fetched = info) ∧
    (needUpdate node_uuids fetched info.nodes_info = true →
        (updateCluster info node_uuids fetched).published.version =
          info.published.version + 1 ∧
        (updateCluster info node_uuids fetched).published ≠ info.published ∧
        (updateCluster info node_uuids fetched).nodes_info =
          getNodes node_uuids fetched ∧
        (updateCluster info node_uuids fetched).published.addresses =
          (getNodes node_uuids fetched).map (fun p => p.2.address)) := by
  constructor
  · intro h
    have hf : needUpdate node_uuids fetched info.nodes_info = false :=
      (needUpdate_eq_false_iff _ _ _).mpr h
    rw [updateCluster, hf]
    simp
  · intro h
    rw [updateCluster, if_pos h]
    refine ⟨rfl, ?_, rfl, rfl⟩
    intro heq
    have hv := congrArg TopologySnapshot.version heq
    exact Nat.succ_ne_self info.published.version hv

/-- Claim C5 witness: the spec scenario — a refresh of `infoW` with
identical uuids and addresses leaves the cluster unchanged; a refresh
moving n2 to h2:9001 bumps the published version and replaces the
published reference. -/
theorem updateCluster_republish_iff_change_witness :
    updateCluster infoW uuidsW fetchW = infoW ∧
    (updateCluster infoW uuidsW fetchW').published.version =
      infoW.published.version + 1 ∧
    (updateCluster infoW uuidsW fetchW').published ≠ infoW.published := by
  refine ⟨(updateCluster_republish_iff_change infoW uuidsW fetchW).1
    ⟨by decide, by decide⟩, ?_, ?_⟩
  · exact ((updateCluster_republish_iff_change infoW uuidsW fetchW').2 (by decide)).1
  · exact ((updateCluster_republish_iff_change infoW uuidsW fetchW').2 (by decide)).2.1

end DB
